import Mathlib

/-!
Shallow embedding of the Graph Layout & Viewport Rendering Engine of the
Aether-Analytica repository: the compact inline graph view
(`KnowledgeGraphViz` in `AnalysisDashboard.tsx`) and the full-screen view
(`FullScreenGraph` in `HistoryView.tsx`).  Numbers that the source
manipulates with plain arithmetic (viewport scale, offsets, opacities) are
modelled as rationals; geometric positions, which go through `Math.cos` /
`Math.sin`, are modelled as real numbers.
-/

namespace AetherGraph

/-- A graph node as used by both visualizations: `{ id, label, type }`,
all strings (the `type` is an open string category). -/
structure GraphNode where
  id : String
  label : String
  type : String
deriving DecidableEq, Repr

/-- A directed labeled edge `{ from, to, label }` (the `from` / `to`
fields are renamed `fromId` / `toId` because `from` is a Lean keyword). -/
structure GraphEdge where
  fromId : String
  toId : String
  label : String
deriving DecidableEq, Repr

/-! ### ColorPolicy

`getNodeColor` of `FullScreenGraph` (part_000 lines 94-102) and of
`KnowledgeGraphViz` (part_002 lines 73-81).  The two switch statements agree
on the four recognized tags and differ in the default branch. -/

/-- Full-screen `getNodeColor` (part_000 lines 94-102); default `#64748b`. -/
def getNodeColorFS (t : String) : String :=
  if t = "risk" then "#ef4444"
  else if t = "outcome" then "#f59e0b"
  else if t = "action" then "#10b981"
  else if t = "entity" then "#06b6d4"
  else "#64748b"

/-- Compact `getNodeColor` (part_002 lines 73-81); default `#94a3b8`. -/
def getNodeColorCompact (t : String) : String :=
  if t = "risk" then "#ef4444"
  else if t = "outcome" then "#f59e0b"
  else if t = "action" then "#10b981"
  else if t = "entity" then "#06b6d4"
  else "#94a3b8"

/-! ### Tier categorization

Full-screen (part_000 lines 54-57) filters `entities`, `actions`,
`results` (risk-or-outcome together, in input order) and `others`;
compact (part_002 lines 30-34) filters `entities`, `actions`, `risks`,
`outcomes`, `others` separately. -/

/-- The filter `nodes.filter(n => n.type === 'entity')` (both modes). -/
def entities (nodes : List GraphNode) : List GraphNode :=
  nodes.filter (fun n => n.type = "entity")

/-- The filter `nodes.filter(n => n.type === 'action')` (both modes). -/
def actions (nodes : List GraphNode) : List GraphNode :=
  nodes.filter (fun n => n.type = "action")

/-- The filter `nodes.filter(n => ['risk', 'outcome'].includes(n.type))`
(full-screen only, part_000 line 56). -/
def results (nodes : List GraphNode) : List GraphNode :=
  nodes.filter (fun n => n.type = "risk" || n.type = "outcome")

/-- The filter `nodes.filter(n => n.type === 'risk')` (compact only, part_002 line 32). -/
def risks (nodes : List GraphNode) : List GraphNode :=
  nodes.filter (fun n => n.type = "risk")

/-- The filter `nodes.filter(n => n.type === 'outcome')` (compact only, part_002 line 33). -/
def outcomes (nodes : List GraphNode) : List GraphNode :=
  nodes.filter (fun n => n.type = "outcome")

/-- The filter `nodes.filter(n => !['entity','action','risk','outcome'].includes(n.type))`
(both modes). -/
def others (nodes : List GraphNode) : List GraphNode :=
  nodes.filter (fun n =>
    !(n.type = "entity" || n.type = "action" || n.type = "risk" || n.type = "outcome"))

/-- The list handed to the Tier2 `distribute` call in the full-screen mode:
`[...results, ...others]` (part_000 line 86). -/
def fsTier2Members (nodes : List GraphNode) : List GraphNode :=
  results nodes ++ others nodes

/-- The list handed to the Tier2 `distribute` call in the compact mode:
`[...risks, ...outcomes, ...others]` (part_002 line 65). -/
def compactTier2Members (nodes : List GraphNode) : List GraphNode :=
  risks nodes ++ outcomes nodes ++ others nodes

/-! ### ViewportController (full-screen mode only, part_000 lines 11-49)

`viewState = { x, y, scale }` starts at `{0, 0, 1}`; dragging state is
`isDragging` plus `lastMousePos`.  JavaScript numbers here are modelled as
rationals. -/

/-- The `viewState` record `{ x, y, scale }` (part_000 line 11). -/
structure ViewState where
  x : ℚ
  y : ℚ
  scale : ℚ
deriving DecidableEq, Repr

/-- The whole mutable state of one full-screen rendering session:
`viewState`, `isDragging`, `lastMousePos` (part_000 lines 11-13). -/
structure ViewportSession where
  view : ViewState
  isDragging : Bool
  lastMousePos : ℚ × ℚ
deriving DecidableEq, Repr

/-- Initial session state: `{x: 0, y: 0, scale: 1}`, not dragging. -/
def initSession : ViewportSession :=
  { view := { x := 0, y := 0, scale := 1 }, isDragging := false, lastMousePos := (0, 0) }

/-- One viewport input event: wheel, mouse down/move/up, or one of the three
control buttons (part_000 lines 23-49). -/
inductive ViewportOp where
  | wheel (deltaY : ℚ)
  | mouseDown (pos : ℚ × ℚ)
  | mouseMove (pos : ℚ × ℚ)
  | mouseUp
  | zoomIn
  | zoomOut
  | resetView
deriving DecidableEq, Repr

/-- The wheel handler `handleWheel` (part_000 lines 23-28): `delta = -deltaY * 0.001`;
`newScale = Math.min(Math.max(0.2, scale + delta), 4)`. -/
def handleWheel (s : ViewportSession) (deltaY : ℚ) : ViewportSession :=
  let delta := -deltaY * 0.001
  let newScale := min (max 0.2 (s.view.scale + delta)) 4
  { s with view := { s.view with scale := newScale } }

/-- One step of the viewport state machine, dispatching on the event
(part_000 lines 23-49). -/
def stepViewport (s : ViewportSession) : ViewportOp → ViewportSession
  | .wheel d => handleWheel s d
  | .mouseDown p => { s with isDragging := true, lastMousePos := p }
  | .mouseMove p =>
      if s.isDragging then
        { s with
          view := { s.view with
            x := s.view.x + (p.1 - s.lastMousePos.1),
            y := s.view.y + (p.2 - s.lastMousePos.2) },
          lastMousePos := p }
      else s
  | .mouseUp => { s with isDragging := false }
  | .zoomIn => { s with view := { s.view with scale := min (s.view.scale + 0.2) 4 } }
  | .zoomOut => { s with view := { s.view with scale := max (s.view.scale - 0.2) 0.2 } }
  | .resetView => { s with view := { x := 0, y := 0, scale := 1 } }

/-- Folding a sequence of viewport events over a session state. -/
def applyOps (s : ViewportSession) (ops : List ViewportOp) : ViewportSession :=
  ops.foldl stepViewport s

/-! ### InteractionState (hover) and dimming

Both modes keep `hoveredNodeId : string | null`.  JavaScript truthiness of
a string (`hoveredNodeId && e`) is false for `null` and for the empty
string, which the Boolean helpers below reproduce. -/

/-- JavaScript truthiness of `hoveredNodeId : string | null`: `null` and
the empty string are falsy. -/
def hoverTruthy : Option String → Bool
  | none => false
  | some s => !(s = "")

/-- The flag `isConnectedToHover = hoveredNodeId && (edge.from === hoveredNodeId ||
edge.to === hoveredNodeId)` (part_000 line 158, part_002 line 110),
coerced to a Boolean. -/
def isConnectedToHover (hovered : Option String) (e : GraphEdge) : Bool :=
  match hovered with
  | none => false
  | some h => !(h = "") && (e.fromId = h || e.toId = h)

/-- Edge group opacity in the full-screen mode (part_000 line 161):
`hoveredNodeId && !isConnectedToHover ? 0.1 : 1`. -/
def fsEdgeOpacity (hovered : Option String) (e : GraphEdge) : ℚ :=
  if hoverTruthy hovered && !(isConnectedToHover hovered e) then 0.1 else 1

/-- Edge `strokeOpacity` in the compact mode (part_002 line 119):
`hoveredNodeId && !isConnectedToHover ? 0.1 : 1`. -/
def compactEdgeStrokeOpacity (hovered : Option String) (e : GraphEdge) : ℚ :=
  if hoverTruthy hovered && !(isConnectedToHover hovered e) then 0.1 else 1

/-- The flag `isDimmed = hoveredNodeId && hoveredNodeId !== node.id` (part_000
line 192, part_002 line 128), coerced to a Boolean. -/
def isDimmed (hovered : Option String) (nodeId : String) : Bool :=
  match hovered with
  | none => false
  | some h => !(h = "") && !(h = nodeId)

/-- Node group opacity in the full-screen mode (part_000 line 198):
`isDimmed ? 0.3 : 1`. -/
def fsNodeOpacity (hovered : Option String) (nodeId : String) : ℚ :=
  if isDimmed hovered nodeId then 0.3 else 1

/-- Node group opacity in the compact mode (part_002 line 134):
`isDimmed ? 0.2 : 1`. -/
def compactNodeOpacity (hovered : Option String) (nodeId : String) : ℚ :=
  if isDimmed hovered nodeId then 0.2 else 1

/-- Full-screen node `onMouseLeave` handler (part_000 line 200):
`() => setHoveredNodeId(null)` — unconditional, ignoring both the leaving
node and the current hover. -/
def onNodeLeaveFS (_leaving : GraphNode) (_hovered : Option String) : Option String :=
  none

/-- Compact node `onMouseLeave` handler (part_002 line 136):
`() => setHoveredNodeId(null)` — unconditional, ignoring both the leaving
node and the current hover. -/
def onNodeLeaveCompact (_leaving : GraphNode) (_hovered : Option String) : Option String :=
  none

/-! ### LayoutEngine

Both modes build a `posMap : Map<id, {x, y}>` with a `distribute` helper
and then map each node to its looked-up position, falling back to the
canvas center.  The two `distribute` functions (part_000 lines 62-73,
part_002 lines 39-50) share one parameterized core here: the full-screen
one uses an elliptical radius pair over a 800x600 canvas, the compact one
a single circular radius over a 400x300 canvas. -/

/-- A position map `Map<id, {x, y}>`; `Map.set` overwrites. -/
def PosMap : Type := String → Option (ℝ × ℝ)

/-- The write `posMap.set(id, p)`: overwrite-or-insert. -/
def PosMap.set (m : PosMap) (k : String) (v : ℝ × ℝ) : PosMap :=
  fun q => if q = k then some v else m q

/-- The empty position map (`new Map()`). -/
def PosMap.empty : PosMap := fun _ => none

/-- The `(id, position)` pairs written by one `distribute` call over a
nonempty tier: for index `i`, `angle = startAngle + i * step - PI/2` with
`step = 2*PI/count`, and position
`(cx + radiusX * cos(angle), cy + radiusY * sin(angle))`
(part_000 lines 65-71, part_002 lines 42-48). -/
noncomputable def tierPlacements (cx cy radiusX radiusY startAngle : ℝ)
    (list : List GraphNode) : List (String × (ℝ × ℝ)) :=
  list.enum.map (fun p =>
    (p.2.id,
      (cx + radiusX * Real.cos (startAngle + p.1 * (2 * Real.pi / list.length) - Real.pi / 2),
       cy + radiusY * Real.sin (startAngle + p.1 * (2 * Real.pi / list.length) - Real.pi / 2))))

/-- The `distribute` helper: `if (count === 0) return;` else write every
index's placement into the map (part_000 lines 62-73, part_002
lines 39-50; the compact variant passes `radiusX = radiusY`). -/
noncomputable def distribute (cx cy : ℝ) (m : PosMap) (list : List GraphNode)
    (radiusX radiusY startAngle : ℝ) : PosMap :=
  if list.length = 0 then m
  else (tierPlacements cx cy radiusX radiusY startAngle list).foldl
    (fun acc kv => acc.set kv.1 kv.2) m

/-- Full-screen canvas center x: `width / 2` with `width = 800`. -/
def fsCx : ℝ := 400
/-- Full-screen canvas center y: `height / 2` with `height = 600`. -/
def fsCy : ℝ := 300
/-- Compact canvas center x: `width / 2` with `width = 400`. -/
def cCx : ℝ := 200
/-- Compact canvas center y: `height / 2` with `height = 300`. -/
def cCy : ℝ := 150

/-- The position map built by the full-screen `nodePositions` memo
(part_000 lines 52-87): Layer 1 puts a lone entity dead center and
otherwise rings entities at (100, 80, phase 0); Layer 2 rings actions at
(220, 160, phase 0.5); Layer 3 rings `[...results, ...others]` at
(320, 240, phase 1.0).  Later writes overwrite earlier ones, as
`Map.set` does. -/
noncomputable def fsPosMap (nodes : List GraphNode) : PosMap :=
  distribute fsCx fsCy
    (distribute fsCx fsCy
      (match entities nodes with
        | [e] => PosMap.empty.set e.id (fsCx, fsCy)
        | _ => distribute fsCx fsCy PosMap.empty (entities nodes) 100 80 0)
      (actions nodes) 220 160 0.5)
    (fsTier2Members nodes) 320 240 1.0

/-- The full-screen `nodePositions` result (part_000 lines 88-91): every
node paired with its looked-up position, center fallback. -/
noncomputable def fsLayout (nodes : List GraphNode) : List (GraphNode × ℝ × ℝ) :=
  nodes.map (fun n => (n, (fsPosMap nodes n.id).getD (fsCx, fsCy)))

/-- The position map built by the compact `nodePositions` memo (part_002
lines 28-65): a lone entity dead center, otherwise entities ring
(40, phase 0); actions ring (90, phase 0.5);
`[...risks, ...outcomes, ...others]` ring (130, phase 1.0). -/
noncomputable def compactPosMap (nodes : List GraphNode) : PosMap :=
  distribute cCx cCy
    (distribute cCx cCy
      (match entities nodes with
        | [e] => PosMap.empty.set e.id (cCx, cCy)
        | _ => distribute cCx cCy PosMap.empty (entities nodes) 40 40 0)
      (actions nodes) 90 90 0.5)
    (compactTier2Members nodes) 130 130 1.0

/-- The compact `nodePositions` result (part_002 lines 67-70): every node
paired with its looked-up position, center fallback. -/
noncomputable def compactLayout (nodes : List GraphNode) : List (GraphNode × ℝ × ℝ) :=
  nodes.map (fun n => (n, (compactPosMap nodes n.id).getD (cCx, cCy)))

/-! ### RenderPipeline: edge resolution and tooltips -/

/-- The lookup `nodePositions.find(n => n.id === key)` on a positioned node list. -/
def findNode (ps : List (GraphNode × ℝ × ℝ)) (key : String) : Option (GraphNode × ℝ × ℝ) :=
  ps.find? (fun p => p.1.id = key)

/-- Full-screen edge rendering guard (part_000 lines 153-156): resolve
`from` and `to` in `nodePositions`; `if (!start || !end) return null;`
otherwise the edge group (line plus optional label) renders between the
two positions. -/
noncomputable def fsRenderedEdge (nodes : List GraphNode) (e : GraphEdge) :
    Option ((ℝ × ℝ) × (ℝ × ℝ)) :=
  match findNode (fsLayout nodes) e.fromId, findNode (fsLayout nodes) e.toId with
  | some s, some t => some (s.2, t.2)
  | _, _ => none

/-- Compact edge rendering guard (part_002 lines 105-108): same
resolve-then-drop structure over the compact layout. -/
noncomputable def compactRenderedEdge (nodes : List GraphNode) (e : GraphEdge) :
    Option ((ℝ × ℝ) × (ℝ × ℝ)) :=
  match findNode (compactLayout nodes) e.fromId, findNode (compactLayout nodes) e.toId with
  | some s, some t => some (s.2, t.2)
  | _, _ => none

/-- The lookup `const activeNode = nodePositions.find(n => n.id === hoveredNodeId)`
over the full-screen layout (part_000 line 104); `null` hover matches
nothing. -/
noncomputable def fsActiveNode (nodes : List GraphNode) (hovered : Option String) :
    Option (GraphNode × ℝ × ℝ) :=
  match hovered with
  | none => none
  | some h => findNode (fsLayout nodes) h

/-- The lookup `const activeNode = nodePositions.find(n => n.id === hoveredNodeId)`
over the compact layout (part_002 line 83). -/
noncomputable def compactActiveNode (nodes : List GraphNode) (hovered : Option String) :
    Option (GraphNode × ℝ × ℝ) :=
  match hovered with
  | none => none
  | some h => findNode (compactLayout nodes) h

/-- The text contents of the full-screen tooltip panel (part_000
lines 249-251): the label, the type, and a fixed hint line. -/
def fsTooltipTexts (n : GraphNode) : List String :=
  [n.label, n.type, "Double click to focus"]

/-- The compact tooltip label truncation (part_002 line 183):
`label.length > 15 ? label.substring(0, 14) + '..' : label`. -/
def compactTooltipLabel (label : String) : String :=
  if label.length > 15 then String.take label 14 ++ ".." else label

/-- The text contents of the compact tooltip panel (part_002
lines 182-184): a single text element holding the truncated label. -/
def compactTooltipTexts (n : GraphNode) : List String :=
  [compactTooltipLabel n.label]

/-- The full-screen tooltip (part_000 lines 246-253): rendered as a
sibling of the pan/zoom transform group with the constant transform
`translate(20, 20)`; its anchor ignores the view state and the active
node's scene position, and it shows `fsTooltipTexts`. -/
noncomputable def fsTooltip (nodes : List GraphNode) (hovered : Option String)
    (_vs : ViewState) : Option ((ℝ × ℝ) × List String) :=
  (fsActiveNode nodes hovered).map (fun a => ((20, 20), fsTooltipTexts a.1))

/-- The compact tooltip (part_002 lines 166-186): rendered with the
node-dependent transform `translate(activeNode.x, activeNode.y - 20)`, and
it shows `compactTooltipTexts`. -/
noncomputable def compactTooltip (nodes : List GraphNode) (hovered : Option String) :
    Option ((ℝ × ℝ) × List String) :=
  (compactActiveNode nodes hovered).map
    (fun a => ((a.2.1, a.2.2 - 20), compactTooltipTexts a.1))

/-! ### Shared helper lemmas -/

/-- Every `stepViewport` transition keeps the scale inside `[0.2, 4]` once
it is there. -/
lemma stepViewport_scale_bounds (s : ViewportSession) (op : ViewportOp)
    (h1 : 0.2 ≤ s.view.scale) (h2 : s.view.scale ≤ 4) :
    0.2 ≤ (stepViewport s op).view.scale ∧ (stepViewport s op).view.scale ≤ 4 := by
  cases op with
  | wheel d =>
      refine ⟨le_min (le_max_left _ _) (by norm_num), min_le_right _ _⟩
  | mouseDown p => exact ⟨h1, h2⟩
  | mouseMove p =>
      by_cases hd : s.isDragging <;> simp [stepViewport, hd] <;> exact ⟨h1, h2⟩
  | mouseUp => exact ⟨h1, h2⟩
  | zoomIn =>
      refine ⟨le_min (by linarith) (by norm_num), min_le_right _ _⟩
  | zoomOut =>
      refine ⟨le_max_right _ _, max_le (by linarith) (by norm_num)⟩
  | resetView => norm_num [stepViewport]

/-- The full-screen `results` filter is a permutation of the compact
`risks`-then-`outcomes` concatenation. -/
lemma results_perm (nodes : List GraphNode) :
    (results nodes).Perm (risks nodes ++ outcomes nodes) := by
  induction nodes with
  | nil => simp [results, risks, outcomes]
  | cons a l ih =>
      by_cases hr : a.type = "risk"
      · have ho : ¬ a.type = "outcome" := by rw [hr]; decide
        simpa [results, risks, outcomes, List.filter_cons, hr, ho] using ih.cons a
      · by_cases ho : a.type = "outcome"
        · simp only [results, risks, outcomes, List.filter_cons] at ih ⊢
          simp only [hr, ho]
          simp only [decide_True, decide_False, Bool.false_or, Bool.or_true,
            Bool.or_false, if_true, if_false]
          exact (ih.cons a).trans List.perm_middle.symm
        · simpa [results, risks, outcomes, List.filter_cons, hr, ho] using ih

/-! ### Claim theorems -/

/-- Claim C10: the compact and full-screen `getNodeColor` functions agree
on the four recognized tags (`entity ↦ #06b6d4`, `action ↦ #10b981`,
`risk ↦ #ef4444`, `outcome ↦ #f59e0b`), return the distinct defaults
`#94a3b8` (compact) and `#64748b` (full-screen) on every unrecognized
string, and hence are not extensionally equal. -/
theorem colorPolicies_agree_except_default (t : String)
    (h1 : t ≠ "risk") (h2 : t ≠ "outcome") (h3 : t ≠ "action") (h4 : t ≠ "entity") :
    (getNodeColorCompact "entity" = "#06b6d4" ∧ getNodeColorFS "entity" = "#06b6d4") ∧
    (getNodeColorCompact "action" = "#10b981" ∧ getNodeColorFS "action" = "#10b981") ∧
    (getNodeColorCompact "risk" = "#ef4444" ∧ getNodeColorFS "risk" = "#ef4444") ∧
    (getNodeColorCompact "outcome" = "#f59e0b" ∧ getNodeColorFS "outcome" = "#f59e0b") ∧
    (getNodeColorCompact t = "#94a3b8" ∧ getNodeColorFS t = "#64748b") ∧
    getNodeColorCompact ≠ getNodeColorFS := by
  refine ⟨by decide, by decide, by decide, by decide,
    ⟨?_, ?_⟩, fun h => ?_⟩
  · simp [getNodeColorCompact, h1, h2, h3, h4]
  · simp [getNodeColorFS, h1, h2, h3, h4]
  · have := congrFun h "unknown"
    simp [getNodeColorCompact, getNodeColorFS] at this

/-- Witness for C10 at the concrete unrecognized tag `"unknown"`. -/
theorem colorPolicies_agree_except_default_witness :
    (("unknown" : String) ≠ "risk" ∧ ("unknown" : String) ≠ "outcome" ∧
      ("unknown" : String) ≠ "action" ∧ ("unknown" : String) ≠ "entity") ∧
    getNodeColorCompact "unknown" = "#94a3b8" ∧ getNodeColorFS "unknown" = "#64748b" := by
  have h := colorPolicies_agree_except_default "unknown"
    (by decide) (by decide) (by decide) (by decide)
  exact ⟨⟨by decide, by decide, by decide, by decide⟩, h.2.2.2.2.1⟩

/-- Claim C8 counterexample: with `"b"` hovered, a leave event carrying the
different node id `"a"` does not leave the hover unchanged — both handlers
clear it to `null` unconditionally. -/
theorem nodeLeave_stale_counterexample :
    onNodeLeaveFS ⟨"a", "A", "entity"⟩ (some "b") = none ∧
    onNodeLeaveCompact ⟨"a", "A", "entity"⟩ (some "b") = none ∧
    onNodeLeaveFS ⟨"a", "A", "entity"⟩ (some "b") ≠ some "b" ∧
    onNodeLeaveCompact ⟨"a", "A", "entity"⟩ (some "b") ≠ some "b" := by
  refine ⟨rfl, rfl, ?_, ?_⟩ <;> simp [onNodeLeaveFS, onNodeLeaveCompact]

/-- Claim C8 amended: in both modes the node-leave handler clears
`hoveredNodeId` to `null` unconditionally, whatever node the event carries
and whatever was hovered. -/
theorem nodeLeave_always_clears (n : GraphNode) (hovered : Option String) :
    onNodeLeaveFS n hovered = none ∧ onNodeLeaveCompact n hovered = none :=
  ⟨rfl, rfl⟩

/-- Claim C7 counterexample: `zoomIn` is not idempotent — from the initial
state one press gives scale `1.2`, a second identical press gives `1.4`. -/
theorem viewport_not_idempotent_counterexample :
    (applyOps initSession [ViewportOp.zoomIn]).view.scale = 1.2 ∧
    (applyOps initSession [ViewportOp.zoomIn, ViewportOp.zoomIn]).view.scale = 1.4 ∧
    applyOps initSession [ViewportOp.zoomIn, ViewportOp.zoomIn] ≠
      applyOps initSession [ViewportOp.zoomIn] := by
  have e1 : (applyOps initSession [ViewportOp.zoomIn]).view.scale = 1.2 := by
    norm_num [applyOps, stepViewport, initSession, min_def]
  have e2 : (applyOps initSession [ViewportOp.zoomIn, ViewportOp.zoomIn]).view.scale = 1.4 := by
    norm_num [applyOps, stepViewport, initSession, min_def]
  refine ⟨e1, e2, fun h => ?_⟩
  rw [congrArg (fun s => s.view.scale) h, e1] at e2
  norm_num at e2

/-- Claim C7 amended: the pointer operations and `resetView` are idempotent
under repeated identical input; the wheel and zoom-button operations
accumulate instead (see the counterexample). -/
theorem viewport_pointer_ops_idempotent (s : ViewportSession) (p : ℚ × ℚ) :
    stepViewport (stepViewport s (.mouseDown p)) (.mouseDown p) =
      stepViewport s (.mouseDown p) ∧
    stepViewport (stepViewport s (.mouseMove p)) (.mouseMove p) =
      stepViewport s (.mouseMove p) ∧
    stepViewport (stepViewport s .mouseUp) .mouseUp = stepViewport s .mouseUp ∧
    stepViewport (stepViewport s .resetView) .resetView = stepViewport s .resetView := by
  refine ⟨rfl, ?_, rfl, rfl⟩
  by_cases hd : s.isDragging <;> simp [stepViewport, hd]

/-- Claim C2: starting from the initial viewport state, the scale stays in
`[0.2, 4]` after any sequence of viewport operations (wheel with arbitrary
`deltaY`, the zoom buttons, reset — the pointer operations, which do not
touch the scale, are included as well). -/
theorem scale_always_clamped (ops : List ViewportOp) :
    0.2 ≤ (applyOps initSession ops).view.scale ∧
    (applyOps initSession ops).view.scale ≤ 4 := by
  suffices h : ∀ s : ViewportSession, 0.2 ≤ s.view.scale → s.view.scale ≤ 4 →
      0.2 ≤ (applyOps s ops).view.scale ∧ (applyOps s ops).view.scale ≤ 4 by
    exact h initSession (by norm_num [initSession]) (by norm_num [initSession])
  induction ops with
  | nil => exact fun s h1 h2 => ⟨h1, h2⟩
  | cons op rest ih =>
      intro s h1 h2
      have hb := stepViewport_scale_bounds s op h1 h2
      exact ih (stepViewport s op) hb.1 hb.2

/-- Claim C6 counterexample: with a node whose id is the empty string
hovered, JavaScript truthiness (`hoveredNodeId && …`) makes the dimming
rules inert: an edge not touching the hovered node keeps opacity 1 instead
of 0.1, and another node keeps opacity 1 instead of 0.3 / 0.2. -/
theorem hover_dimming_counterexample :
    fsEdgeOpacity (some "") ⟨"a", "b", "x"⟩ = 1 ∧
    compactEdgeStrokeOpacity (some "") ⟨"a", "b", "x"⟩ = 1 ∧
    fsNodeOpacity (some "") "a" = 1 ∧
    compactNodeOpacity (some "") "a" = 1 ∧
    (1 : ℚ) ≠ 0.1 ∧ (1 : ℚ) ≠ 0.3 ∧ (1 : ℚ) ≠ 0.2 := by
  refine ⟨?_, ?_, ?_, ?_, by norm_num, by norm_num, by norm_num⟩ <;>
    simp [fsEdgeOpacity, compactEdgeStrokeOpacity, fsNodeOpacity, compactNodeOpacity,
      hoverTruthy, isConnectedToHover, isDimmed]

/-- Claim C6 amended: when a node id `N ≠ ""` is hovered, every edge
touching `N` has full opacity and every other edge has opacity 0.1 in both
modes; every node with an id other than `N` is dimmed to 0.3 (full-screen)
resp. 0.2 (compact) while the hovered id keeps opacity 1; with no hover
everything is fully opaque. -/
theorem hover_dimming_correct (N : String) (hN : N ≠ "") :
    (∀ e : GraphEdge, e.fromId = N ∨ e.toId = N →
      fsEdgeOpacity (some N) e = 1 ∧ compactEdgeStrokeOpacity (some N) e = 1) ∧
    (∀ e : GraphEdge, ¬(e.fromId = N ∨ e.toId = N) →
      fsEdgeOpacity (some N) e = 0.1 ∧ compactEdgeStrokeOpacity (some N) e = 0.1) ∧
    (∀ nodeId : String, nodeId ≠ N →
      fsNodeOpacity (some N) nodeId = 0.3 ∧ compactNodeOpacity (some N) nodeId = 0.2) ∧
    (fsNodeOpacity (some N) N = 1 ∧ compactNodeOpacity (some N) N = 1) ∧
    (∀ e : GraphEdge, fsEdgeOpacity none e = 1 ∧ compactEdgeStrokeOpacity none e = 1) ∧
    (∀ nodeId : String, fsNodeOpacity none nodeId = 1 ∧ compactNodeOpacity none nodeId = 1) := by
  refine ⟨fun e he => ?_, fun e he => ?_, fun nodeId hne => ?_, ?_, fun e => ?_, fun nodeId => ?_⟩
  · rcases he with h | h <;>
      simp [fsEdgeOpacity, compactEdgeStrokeOpacity, hoverTruthy, isConnectedToHover, hN, h]
  · push_neg at he
    simp [fsEdgeOpacity, compactEdgeStrokeOpacity, hoverTruthy, isConnectedToHover,
      hN, he.1, he.2]
  · simp [fsNodeOpacity, compactNodeOpacity, isDimmed, hN, Ne.symm hne]
  · simp [fsNodeOpacity, compactNodeOpacity, isDimmed, hN]
  · simp [fsEdgeOpacity, compactEdgeStrokeOpacity, hoverTruthy, isConnectedToHover]
  · simp [fsNodeOpacity, compactNodeOpacity, isDimmed]

/-- Witness for C6 amended at the hovered id `"a"`. -/
theorem hover_dimming_correct_witness :
    ("a" : String) ≠ "" ∧
    fsEdgeOpacity (some "a") ⟨"a", "b", "x"⟩ = 1 ∧
    compactEdgeStrokeOpacity (some "a") ⟨"c", "d", "x"⟩ = 0.1 ∧
    fsNodeOpacity (some "a") "b" = 0.3 := by
  have h := hover_dimming_correct "a" (by decide)
  exact ⟨by decide, (h.1 ⟨"a", "b", "x"⟩ (Or.inl rfl)).1,
    (h.2.1 ⟨"c", "d", "x"⟩ (by decide)).2, (h.2.2.1 "b" (by decide)).1⟩

/-- Claim C3 counterexample: on the node list `[outcome "o1", risk "r1"]`
the full-screen Tier2 member list is `[o1, r1]` — the outcome first, so it
is not ordered risk-then-outcome — while the compact one is `[r1, o1]`;
the two implementations therefore disagree beyond the radii tables. -/
theorem tier2_order_counterexample :
    (fsTier2Members [⟨"o1", "O", "outcome"⟩, ⟨"r1", "R", "risk"⟩]).map GraphNode.id =
      ["o1", "r1"] ∧
    (compactTier2Members [⟨"o1", "O", "outcome"⟩, ⟨"r1", "R", "risk"⟩]).map GraphNode.id =
      ["r1", "o1"] ∧
    fsTier2Members [⟨"o1", "O", "outcome"⟩, ⟨"r1", "R", "risk"⟩] ≠
      compactTier2Members [⟨"o1", "O", "outcome"⟩, ⟨"r1", "R", "risk"⟩] := by
  refine ⟨by decide, by decide, by decide⟩

/-- Claim C3 amended: the compact Tier2 member list is risks, then
outcomes, then others; the full-screen Tier2 member list keeps risk and
outcome nodes interleaved in input order (then others).  The two lists are
always permutations of each other, and they coincide exactly when the
risk-or-outcome filter already lists all risks before all outcomes. -/
theorem tier2_members_perm_and_agreement (nodes : List GraphNode) :
    (fsTier2Members nodes).Perm (compactTier2Members nodes) ∧
    (fsTier2Members nodes = compactTier2Members nodes ↔
      results nodes = risks nodes ++ outcomes nodes) := by
  constructor
  · simpa [fsTier2Members, compactTier2Members, List.append_assoc] using
      (results_perm nodes).append_right (others nodes)
  · constructor
    · intro h
      simp only [fsTier2Members, compactTier2Members, ← List.append_assoc] at h
      exact List.append_cancel_right h
    · intro h
      simp [fsTier2Members, compactTier2Members, h, List.append_assoc]

/-- Resolving an id over a layout list finds nothing exactly when no node
of the graph carries that id. -/
lemma findNode_map_eq_none (nodes : List GraphNode) (g : GraphNode → ℝ × ℝ) (key : String) :
    findNode (nodes.map (fun n => (n, g n))) key = none ↔ ∀ n ∈ nodes, n.id ≠ key := by
  simp only [findNode, List.find?_map]
  simp [Option.map_eq_none', List.find?_eq_none, Function.comp]

/-- Claim C1: in the shared distribution rule (instantiated with the
full-screen elliptical radii and with the compact circular radii alike),
the entry written for index `i` of a tier of `n = list.length` nodes is
the node's id paired with
`(cx + rx·cos(θ0 + i·(2π/n) − π/2), cy + ry·sin(θ0 + i·(2π/n) − π/2))`,
and a tier with zero nodes writes nothing at all (the `count === 0` guard
returns before the `2π/count` step is used). -/
theorem distribution_rule (cx cy radiusX radiusY startAngle : ℝ) (list : List GraphNode)
    (i : ℕ) (h : i < list.length) (m : PosMap) :
    (tierPlacements cx cy radiusX radiusY startAngle list)[i]? =
      some ((list.get ⟨i, h⟩).id,
        (cx + radiusX * Real.cos (startAngle + i * (2 * Real.pi / list.length) - Real.pi / 2),
         cy + radiusY * Real.sin (startAngle + i * (2 * Real.pi / list.length) - Real.pi / 2))) ∧
    distribute cx cy m [] radiusX radiusY startAngle = m := by
  constructor
  · simp only [tierPlacements, List.getElem?_map, List.getElem?_enum,
      List.getElem?_eq_getElem h, Option.map_some']
    simp [List.get_eq_getElem]
  · rfl

/-- Witness for C1: a one-node tier places index 0 at phase angle
`θ0 − π/2`, and the empty tier leaves the map untouched. -/
theorem distribution_rule_witness :
    0 < ([⟨"a", "A", "entity"⟩] : List GraphNode).length ∧
    (tierPlacements 400 300 100 80 0 [⟨"a", "A", "entity"⟩])[0]? =
      some ("a",
        (400 + 100 * Real.cos (0 + (0 : ℕ) * (2 * Real.pi / ((1 : ℕ) : ℝ)) - Real.pi / 2),
         300 + 80 * Real.sin (0 + (0 : ℕ) * (2 * Real.pi / ((1 : ℕ) : ℝ)) - Real.pi / 2))) ∧
    distribute 400 300 PosMap.empty [] 100 80 0 = PosMap.empty := by
  have h := distribution_rule 400 300 100 80 0 [⟨"a", "A", "entity"⟩] 0 (by decide) PosMap.empty
  exact ⟨by decide, h.1, h.2⟩

/-- Claim C5: in both render pipelines an edge is dropped (no line, no
label, no error — the guard is a total function into `Option`) exactly
when its `from` id or its `to` id matches no node of the graph; every
other edge resolves to its two endpoint positions. -/
theorem dangling_edges_dropped (nodes : List GraphNode) (e : GraphEdge) :
    (fsRenderedEdge nodes e = none ↔
      (∀ n ∈ nodes, n.id ≠ e.fromId) ∨ (∀ n ∈ nodes, n.id ≠ e.toId)) ∧
    (compactRenderedEdge nodes e = none ↔
      (∀ n ∈ nodes, n.id ≠ e.fromId) ∨ (∀ n ∈ nodes, n.id ≠ e.toId)) := by
  have hfs : ∀ key, findNode (fsLayout nodes) key = none ↔ ∀ n ∈ nodes, n.id ≠ key := by
    intro key
    simpa only [fsLayout] using
      findNode_map_eq_none nodes (fun n => (fsPosMap nodes n.id).getD (fsCx, fsCy)) key
  have hc : ∀ key, findNode (compactLayout nodes) key = none ↔ ∀ n ∈ nodes, n.id ≠ key := by
    intro key
    simpa only [compactLayout] using
      findNode_map_eq_none nodes (fun n => (compactPosMap nodes n.id).getD (cCx, cCy)) key
  constructor
  · rw [← hfs e.fromId, ← hfs e.toId]
    rcases h1 : findNode (fsLayout nodes) e.fromId with _ | s <;>
      rcases h2 : findNode (fsLayout nodes) e.toId with _ | t <;>
        simp [fsRenderedEdge, h1, h2]
  · rw [← hc e.fromId, ← hc e.toId]
    rcases h1 : findNode (compactLayout nodes) e.fromId with _ | s <;>
      rcases h2 : findNode (compactLayout nodes) e.toId with _ | t <;>
        simp [compactRenderedEdge, h1, h2]

/-- Folding `Map.set` writes leaves untouched every key none of the
written pairs carries. -/
lemma foldl_set_apply_of_ne (kvs : List (String × (ℝ × ℝ))) (m : PosMap) (k : String)
    (h : ∀ kv ∈ kvs, kv.1 ≠ k) :
    (kvs.foldl (fun acc kv => acc.set kv.1 kv.2) m) k = m k := by
  induction kvs generalizing m with
  | nil => rfl
  | cons kv rest ih =>
      rw [List.foldl_cons, ih _ (fun x hx => h x (List.mem_cons_of_mem _ hx))]
      have hkv : ¬ k = kv.1 := Ne.symm (h kv (List.mem_cons_self _ _))
      simp [PosMap.set, hkv]

/-- The keys written by one `distribute` call are exactly the tier's node
ids, in order. -/
lemma tierPlacements_fst (cx cy radiusX radiusY startAngle : ℝ) (list : List GraphNode) :
    (tierPlacements cx cy radiusX radiusY startAngle list).map Prod.fst =
      list.map GraphNode.id := by
  simp only [tierPlacements, List.map_map]
  conv_rhs => rw [← List.enum_map_snd list, List.map_map]
  rfl

/-- A `distribute` call over a tier whose node ids all differ from `k`
leaves the map's value at `k` unchanged. -/
lemma distribute_apply_of_ne (cx cy : ℝ) (m : PosMap) (list : List GraphNode)
    (radiusX radiusY startAngle : ℝ) (k : String) (h : ∀ n ∈ list, n.id ≠ k) :
    distribute cx cy m list radiusX radiusY startAngle k = m k := by
  unfold distribute
  split
  · rfl
  · apply foldl_set_apply_of_ne
    intro kv hkv
    have h1 : kv.1 ∈ (tierPlacements cx cy radiusX radiusY startAngle list).map Prod.fst :=
      List.mem_map_of_mem _ hkv
    rw [tierPlacements_fst] at h1
    obtain ⟨n, hn, hid⟩ := List.mem_map.mp h1
    exact hid ▸ h n hn

/-- Reading back the key just written. -/
lemma PosMap.set_self (m : PosMap) (k : String) (v : ℝ × ℝ) : (m.set k v) k = some v := by
  simp [PosMap.set]

/-- Claim C4 amended: if exactly one node has type `entity` and no
non-entity node shares its id, both layouts place it exactly at the canvas
center.  (The id side condition is forced: duplicate ids are overwritten
later, see the counterexample.) -/
theorem single_entity_centered (nodes : List GraphNode) (e : GraphNode)
    (h1 : entities nodes = [e])
    (h2 : ∀ n ∈ nodes, n.id = e.id → n.type = "entity") :
    (e, (fsCx, fsCy)) ∈ fsLayout nodes ∧ (e, (cCx, cCy)) ∈ compactLayout nodes := by
  have he : e ∈ nodes := by
    have hm : e ∈ entities nodes := by rw [h1]; exact List.mem_cons_self _ _
    exact (List.mem_filter.mp hm).1
  have hact : ∀ n ∈ actions nodes, n.id ≠ e.id := by
    intro n hn hid
    have hm := List.mem_filter.mp hn
    have htype := h2 n hm.1 hid
    rw [htype] at hm
    simpa using hm.2
  have hmemT : ∀ n ∈ fsTier2Members nodes, n ∈ nodes ∧ ¬ n.type = "entity" := by
    intro n hn
    rcases List.mem_append.mp hn with h | h
    · have hm := List.mem_filter.mp h
      refine ⟨hm.1, fun he' => ?_⟩
      rw [he'] at hm; simpa using hm.2
    · have hm := List.mem_filter.mp h
      refine ⟨hm.1, fun he' => ?_⟩
      rw [he'] at hm; simpa using hm.2
  have hmemC : ∀ n ∈ compactTier2Members nodes, n ∈ nodes ∧ ¬ n.type = "entity" := by
    intro n hn
    rcases List.mem_append.mp hn with h | h
    · rcases List.mem_append.mp h with h' | h'
      · have hm := List.mem_filter.mp h'
        refine ⟨hm.1, fun he' => ?_⟩
        rw [he'] at hm; simpa using hm.2
      · have hm := List.mem_filter.mp h'
        refine ⟨hm.1, fun he' => ?_⟩
        rw [he'] at hm; simpa using hm.2
    · have hm := List.mem_filter.mp h
      refine ⟨hm.1, fun he' => ?_⟩
      rw [he'] at hm; simpa using hm.2
  have ht2fs : ∀ n ∈ fsTier2Members nodes, n.id ≠ e.id := by
    intro n hn hid
    exact (hmemT n hn).2 (h2 n (hmemT n hn).1 hid)
  have ht2c : ∀ n ∈ compactTier2Members nodes, n.id ≠ e.id := by
    intro n hn hid
    exact (hmemC n hn).2 (h2 n (hmemC n hn).1 hid)
  have hfs : fsPosMap nodes e.id = some (fsCx, fsCy) := by
    unfold fsPosMap
    rw [distribute_apply_of_ne _ _ _ _ _ _ _ _ ht2fs,
      distribute_apply_of_ne _ _ _ _ _ _ _ _ hact, h1]
    exact PosMap.set_self _ _ _
  have hcm : compactPosMap nodes e.id = some (cCx, cCy) := by
    unfold compactPosMap
    rw [distribute_apply_of_ne _ _ _ _ _ _ _ _ ht2c,
      distribute_apply_of_ne _ _ _ _ _ _ _ _ hact, h1]
    exact PosMap.set_self _ _ _
  constructor
  · refine List.mem_map.mpr ⟨e, he, ?_⟩
    rw [hfs]
    rfl
  · refine List.mem_map.mpr ⟨e, he, ?_⟩
    rw [hcm]
    rfl

/-- Witness for C4 amended: in `[entity "a", action "b"]` the lone entity
sits at the center of both canvases. -/
theorem single_entity_centered_witness :
    entities [⟨"a", "A", "entity"⟩, ⟨"b", "B", "action"⟩] = [⟨"a", "A", "entity"⟩] ∧
    (⟨"a", "A", "entity"⟩, (fsCx, fsCy)) ∈
      fsLayout [⟨"a", "A", "entity"⟩, ⟨"b", "B", "action"⟩] ∧
    (⟨"a", "A", "entity"⟩, (cCx, cCy)) ∈
      compactLayout [⟨"a", "A", "entity"⟩, ⟨"b", "B", "action"⟩] := by
  have h := single_entity_centered [⟨"a", "A", "entity"⟩, ⟨"b", "B", "action"⟩]
    ⟨"a", "A", "entity"⟩ (by decide) (by decide)
  exact ⟨by decide, h.1, h.2⟩

/-- Claim C4 counterexample: with nodes
`[{id:"a", type:"entity"}, {id:"a", type:"action"}]` exactly one node has
type `entity`, yet the action's Tier1 write overwrites the entity's map
entry, so the entity node is NOT rendered at the full-screen canvas center
`(400, 300)`. -/
theorem single_entity_centered_counterexample :
    entities [⟨"a", "A", "entity"⟩, ⟨"a", "B", "action"⟩] = [⟨"a", "A", "entity"⟩] ∧
    (⟨"a", "A", "entity"⟩, (fsCx, fsCy)) ∉
      fsLayout [⟨"a", "A", "entity"⟩, ⟨"a", "B", "action"⟩] := by
  refine ⟨by decide, fun hmem => ?_⟩
  have key : fsPosMap [⟨"a", "A", "entity"⟩, ⟨"a", "B", "action"⟩] "a" =
      some (400 + 220 * Real.cos
          (0.5 + ((0 : ℕ) : ℝ) * (2 * Real.pi / ((1 : ℕ) : ℝ)) - Real.pi / 2),
        300 + 160 * Real.sin
          (0.5 + ((0 : ℕ) : ℝ) * (2 * Real.pi / ((1 : ℕ) : ℝ)) - Real.pi / 2)) := rfl
  obtain ⟨n, hn, heq⟩ := List.mem_map.mp hmem
  have hsin : 0 < Real.sin 0.5 :=
    Real.sin_pos_of_pos_of_lt_pi (by norm_num) (by linarith [Real.pi_gt_three])
  rcases List.mem_cons.mp hn with rfl | hn'
  · have h2nd : (fsPosMap [⟨"a", "A", "entity"⟩, ⟨"a", "B", "action"⟩] "a").getD
        (fsCx, fsCy) = (fsCx, fsCy) := congrArg Prod.snd heq
    rw [key] at h2nd
    have hx : 400 + 220 * Real.cos
        (0.5 + ((0 : ℕ) : ℝ) * (2 * Real.pi / ((1 : ℕ) : ℝ)) - Real.pi / 2) = 400 := by
      have := congrArg Prod.fst h2nd
      simpa [fsCx] using this
    have hang : (0.5 + ((0 : ℕ) : ℝ) * (2 * Real.pi / ((1 : ℕ) : ℝ)) - Real.pi / 2) =
        0.5 - Real.pi / 2 := by push_cast; ring
    rw [hang, Real.cos_sub_pi_div_two] at hx
    nlinarith
  · rcases List.mem_cons.mp hn' with rfl | habs
    · have hfst := congrArg Prod.fst heq
      simp at hfst
    · exact (List.not_mem_nil _ habs)

/-- Claim C9 counterexample: the compact tooltip shows only the (possibly
truncated) label — the node's category `"entity"` is not among its texts —
and its anchor follows the hovered node's scene position: in the
two-entity graph `[entity "a", entity "b"]` hovering `"a"` and hovering
`"b"` put the tooltip at different positions. -/
theorem tooltip_counterexample :
    "entity" ∉ compactTooltipTexts ⟨"a", "A", "entity"⟩ ∧
    (compactTooltip [⟨"a", "A", "entity"⟩, ⟨"b", "B", "entity"⟩] (some "a")).map Prod.fst ≠
      (compactTooltip [⟨"a", "A", "entity"⟩, ⟨"b", "B", "entity"⟩] (some "b")).map Prod.fst := by
  refine ⟨by decide, fun h => ?_⟩
  have ha : compactTooltip [⟨"a", "A", "entity"⟩, ⟨"b", "B", "entity"⟩] (some "a") =
      some ((200 + 40 * Real.cos
          (0 + ((0 : ℕ) : ℝ) * (2 * Real.pi / ((2 : ℕ) : ℝ)) - Real.pi / 2),
        (150 + 40 * Real.sin
          (0 + ((0 : ℕ) : ℝ) * (2 * Real.pi / ((2 : ℕ) : ℝ)) - Real.pi / 2)) - 20),
        ["A"]) := rfl
  have hb : compactTooltip [⟨"a", "A", "entity"⟩, ⟨"b", "B", "entity"⟩] (some "b") =
      some ((200 + 40 * Real.cos
          (0 + ((1 : ℕ) : ℝ) * (2 * Real.pi / ((2 : ℕ) : ℝ)) - Real.pi / 2),
        (150 + 40 * Real.sin
          (0 + ((1 : ℕ) : ℝ) * (2 * Real.pi / ((2 : ℕ) : ℝ)) - Real.pi / 2)) - 20),
        ["B"]) := rfl
  rw [ha, hb] at h
  simp only [Option.map_some', Option.some.injEq, Prod.mk.injEq] at h
  have hy := h.2
  have hth0 : (0 + ((0 : ℕ) : ℝ) * (2 * Real.pi / ((2 : ℕ) : ℝ)) - Real.pi / 2) =
      -(Real.pi / 2) := by push_cast; ring
  have hth1 : (0 + ((1 : ℕ) : ℝ) * (2 * Real.pi / ((2 : ℕ) : ℝ)) - Real.pi / 2) =
      Real.pi / 2 := by push_cast; ring
  rw [hth0, hth1, Real.sin_neg, Real.sin_pi_div_two] at hy
  norm_num at hy

/-- Claim C9 amended: the full-screen tooltip is anchored at the constant
screen-space point `(20, 20)` outside the pan/zoom transform — independent
of the view state and of the hovered node's position — and shows the
node's label, its type, and a hint line; the compact tooltip is anchored
20 units above the hovered node's scene position and shows only the
node's truncated label. -/
theorem tooltip_modes :
    (∀ (nodes : List GraphNode) (hovered : Option String) (vs : ViewState)
        (t : (ℝ × ℝ) × List String), fsTooltip nodes hovered vs = some t →
      t.1 = ((20 : ℝ), 20) ∧
        ∃ a, fsActiveNode nodes hovered = some a ∧ t.2 = fsTooltipTexts a.1) ∧
    (∀ (nodes : List GraphNode) (hovered : Option String)
        (t : (ℝ × ℝ) × List String), compactTooltip nodes hovered = some t →
      ∃ a, compactActiveNode nodes hovered = some a ∧
        t.1 = (a.2.1, a.2.2 - 20) ∧ t.2 = compactTooltipTexts a.1) := by
  constructor
  · intro nodes hovered vs t ht
    rw [fsTooltip] at ht
    obtain ⟨a, ha, hfa⟩ := Option.map_eq_some'.mp ht
    exact ⟨by rw [← hfa], a, ha, by rw [← hfa]⟩
  · intro nodes hovered t ht
    rw [compactTooltip] at ht
    obtain ⟨a, ha, hfa⟩ := Option.map_eq_some'.mp ht
    exact ⟨a, ha, by rw [← hfa], by rw [← hfa]⟩

/-- Witness for C9 amended: for a one-entity graph hovered at `"a"`, the
full-screen tooltip under the nontrivial view state `(5, 7, 2)` still
anchors at `(20, 20)` with label and type shown, and the compact tooltip
anchors just above the node's `(200, 150)` center position with the label
alone. -/
theorem tooltip_modes_witness :
    fsTooltip [⟨"a", "A", "entity"⟩] (some "a") ⟨5, 7, 2⟩ =
      some (((20 : ℝ), (20 : ℝ)), ["A", "entity", "Double click to focus"]) ∧
    ((((20 : ℝ), (20 : ℝ)), ["A", "entity", "Double click to focus"]) :
      (ℝ × ℝ) × List String).1 = ((20 : ℝ), 20) ∧
    compactTooltip [⟨"a", "A", "entity"⟩] (some "a") =
      some (((200 : ℝ), 150 - 20), ["A"]) := by
  have hfs : fsTooltip [⟨"a", "A", "entity"⟩] (some "a") ⟨5, 7, 2⟩ =
      some (((20 : ℝ), (20 : ℝ)), ["A", "entity", "Double click to focus"]) := rfl
  have hcm : compactTooltip [⟨"a", "A", "entity"⟩] (some "a") =
      some (((200 : ℝ), 150 - 20), ["A"]) := rfl
  exact ⟨hfs, (tooltip_modes.1 _ _ _ _ hfs).1, hcm⟩

end AetherGraph
